import Mathlib

set_option autoImplicit false

/-!
Shallow embedding of the aktis-parser synchronization core (Go) in Lean 4.

The embedding follows the source files:
* `internal/services/jira_service.go` — combined Jira/Confluence scraper
  (`makeRequest`, `GetProjectIssueCount`, `ScrapeProjects`,
  `DeleteProjectIssues`, `GetProjectIssues`, `scrapeProjectIssues`,
  `ClearAllData`),
* the Confluence scraper service (`GetSpacePageCount`, `ScrapeConfluence`,
  `GetSpacePages`, `scrapeSpacePages`),
* `internal/handlers/scraper.go` (`RefreshProjectsCacheHandler`,
  `ClearAllDataHandler`).

Bolt buckets are modelled as association lists with overwrite-on-put,
JSON field bags as structures carrying the fields the Go code reads plus an
opaque payload, and each network-facing loop takes the remote API as a
function argument.  Loops that Go bounds with an iteration counter are
modelled with that counter as structural fuel; Go loops without a bound are
modelled with explicit fuel and a distinguished out-of-fuel outcome so that
non-termination of the Go loop is observable.
-/

namespace AktisParser

/-! Association-list model of one bbolt bucket: string keys, overwrite on
put (`bucket.Put`), linear lookup (`bucket.Get`). -/

/-- Put a key/value pair into a bucket, overwriting an existing binding for
the same key (bbolt `Put` semantics). -/
def putKV {α : Type} : List (String × α) → String → α → List (String × α)
  | [], k, v => [(k, v)]
  | (k0, v0) :: rest, k, v =>
    if k0 = k then (k, v) :: rest else (k0, v0) :: putKV rest k v

/-- Look a key up in a bucket (bbolt `Get`). -/
def getKV {α : Type} : List (String × α) → String → Option α
  | [], _ => none
  | (k0, v0) :: rest, k => if k0 = k then some v0 else getKV rest k

theorem getKV_putKV_self {α : Type} (db : List (String × α)) (k : String) (v : α) :
    getKV (putKV db k v) k = some v := by
  induction db with
  | nil => simp [putKV, getKV]
  | cons hd tl ih =>
    obtain ⟨k1, v1⟩ := hd
    by_cases h : k1 = k
    · simp [putKV, getKV, h]
    · simp [putKV, getKV, h, ih]

theorem getKV_putKV_ne {α : Type} (db : List (String × α)) (k k0 : String) (v : α)
    (h : k0 ≠ k) : getKV (putKV db k0 v) k = getKV db k := by
  induction db with
  | nil => simp [putKV, getKV, h]
  | cons hd tl ih =>
    obtain ⟨k1, v1⟩ := hd
    by_cases h1 : k1 = k0
    · subst h1
      simp [putKV, getKV, h, Ne.symm h]
    · by_cases h2 : k1 = k <;> simp [putKV, getKV, h1, h2, ih, Ne.symm h]

/-! HTTP fetch primitive, from `makeRequest` in jira_service.go.  The Go
function issues exactly one request and classifies the response; transport
errors from `client.Do` are returned untouched. -/

/-- An HTTP response as far as `makeRequest` inspects it. -/
structure HttpResponse where
  status : Nat
  body : String
  deriving Repr, DecidableEq

/-- Error taxonomy produced by the fetch primitive and propagated through
the scraping code. -/
inductive FetchError where
  /-- `client.Do` failed (DNS, timeout, reset); no response available. -/
  | transport
  /-- Status 401 or 403: `auth expired (status %d)`. -/
  | authExpired (status : Nat)
  /-- Any other non-200 status: `HTTP %d: %s` with the response body. -/
  | remote (status : Nat) (body : String)
  deriving Repr, DecidableEq

/-- Response classification of `makeRequest`: 200 yields the body bytes,
401/403 yield the auth-expired error, any other status yields the remote
error carrying status and body. -/
def classifyResponse (resp : HttpResponse) : Except FetchError String :=
  if resp.status ≠ 200 then
    if resp.status = 401 ∨ resp.status = 403 then
      .error (.authExpired resp.status)
    else
      .error (.remote resp.status resp.body)
  else
    .ok resp.body

/-- One `makeRequest` call against a queue of pending remote responses:
it consumes exactly one response (`none` models a transport-level failure of
`client.Do`) and never retries, so the rest of the queue is returned
untouched. -/
def makeRequest (queue : List (Option HttpResponse)) :
    Except FetchError String × List (Option HttpResponse) :=
  match queue with
  | [] => (.error .transport, [])
  | none :: rest => (.error .transport, rest)
  | some resp :: rest => (classifyResponse resp, rest)

/-! Whole-store layout and `ClearAllData`, from jira_service.go.  The store
has five partitions; a partition is `none` when the bucket is absent and
`some entries` when present.  `ClearAllData` deletes and recreates the four
data buckets (tolerating an absent bucket) and never touches `auth`. -/

/-- The embedded store: the five named bbolt buckets created at startup. -/
structure BoltStore where
  projects : Option (List (String × String))
  issues : Option (List (String × String))
  confluence_spaces : Option (List (String × String))
  confluence_pages : Option (List (String × String))
  auth : Option (List (String × String))
  deriving Repr, DecidableEq

/-- `ClearAllData` from jira_service.go: delete-then-recreate each of the
`projects`, `issues`, `confluence_spaces` and `confluence_pages` buckets
(each `DeleteBucket` error other than not-found aborts; the not-found case
is tolerated, and `CreateBucketIfNotExists` leaves the bucket present and
empty).  The `auth` bucket is not mentioned by the function. -/
def ClearAllData (st : BoltStore) : BoltStore :=
  { st with
    projects := some []
    issues := some []
    confluence_spaces := some []
    confluence_pages := some [] }

/-! Index synchronizer, Jira side: `GetProjectIssueCount` and the count-merge
step of `ScrapeProjects` in jira_service.go. -/

/-- A project record as far as the Go code reads its JSON field bag:
`key` (asserted to be a string), `name`, and the derived `issueCount`
(`none` when the field has never been set). -/
structure Project where
  key : String
  name : String
  issueCount : Option Int
  deriving Repr, DecidableEq

/-- Parsed body of the count search query: an `issues` array (only its
length is used) and the `isLast` continuation flag. -/
structure CountSearchResult where
  issues : List Unit
  isLast : Bool
  deriving Repr, DecidableEq

/-- `GetProjectIssueCount`: on a successful fetch-and-parse the count is
`len(result.Issues)`; errors are propagated. -/
def GetProjectIssueCount (r : Except FetchError CountSearchResult) :
    Except FetchError Nat :=
  match r with
  | .error e => .error e
  | .ok res => .ok res.issues.length

/-- The per-project body of the count-fetch goroutine in `ScrapeProjects`:
on error the code executes `projects[index]["issueCount"] = 0`; on success
it stores the fetched count. -/
def mergeIssueCount (p : Project) (r : Except FetchError Nat) : Project :=
  match r with
  | .error _ => { p with issueCount := some 0 }
  | .ok n => { p with issueCount := some (Int.ofNat n) }

/-- The parallel count-fetch phase of `ScrapeProjects`: every project gets
its own count-fetch whose result is merged into that project's record;
one project's failure does not affect any other project. -/
def fetchIssueCounts (countApi : String → Except FetchError CountSearchResult)
    (projects : List Project) : List Project :=
  projects.map (fun p => mergeIssueCount p (GetProjectIssueCount (countApi p.key)))

/-- The store phase of `ScrapeProjects`: upsert every (count-populated)
project record under its stable key, in list order. -/
def storeProjects (db : List (String × Project)) (projects : List Project) :
    List (String × Project) :=
  projects.foldl (fun d p => putKV d p.key p) db

/-- `ScrapeProjects`, given the already-parsed project list: merge counts in
parallel, then upsert each record into the `projects` bucket. -/
def ScrapeProjects (countApi : String → Except FetchError CountSearchResult)
    (projectList : List Project) (db : List (String × Project)) :
    List (String × Project) :=
  storeProjects db (fetchIssueCounts countApi projectList)

/-! Index synchronizer, Confluence side: `GetSpacePageCount` and the
count-merge step of `ScrapeConfluence` in the Confluence scraper service. -/

/-- A space record as far as the Go code reads its field bag: the `key`
field when it is a string, the derived `pageCount`, whether `json.Marshal`
of the record succeeds, and an opaque payload. -/
structure Space where
  key : Option String
  pageCount : Option Int
  serializable : Bool
  payload : Nat
  deriving Repr, DecidableEq

/-- Parsed body of the lightweight content-metadata request: `size` and
`total` fields (the code uses `total`). -/
structure ContentMeta where
  size : Int
  total : Int
  deriving Repr, DecidableEq

/-- `GetSpacePageCount`: returns the remote-reported `total` field verbatim
on success; errors are propagated (the Go function returns `-1` alongside
the error, which callers use as the sentinel). -/
def GetSpacePageCount (r : Except FetchError ContentMeta) :
    Except FetchError Int :=
  match r with
  | .error e => .error e
  | .ok m => .ok m.total

/-- The per-space body of the count-fetch goroutine in `ScrapeConfluence`:
a space without a string key is left untouched; on a failed count the code
executes `allSpaces[index]["pageCount"] = -1`; on success it stores the
fetched total. -/
def mergePageCount (sp : Space) (countApi : String → Except FetchError ContentMeta) :
    Space :=
  match sp.key with
  | none => sp
  | some k =>
    match GetSpacePageCount (countApi k) with
    | .error _ => { sp with pageCount := some (-1) }
    | .ok t => { sp with pageCount := some t }

/-- The parallel count-fetch phase of `ScrapeConfluence`. -/
def fetchPageCounts (countApi : String → Except FetchError ContentMeta)
    (spaces : List Space) : List Space :=
  spaces.map (fun sp => mergePageCount sp countApi)

/-- The store phase of `ScrapeConfluence`: spaces without a string key or
that fail to serialize are skipped; the rest are upserted under their key. -/
def storeSpaces (db : List (String × Space)) (spaces : List Space) :
    List (String × Space) :=
  spaces.foldl
    (fun d sp =>
      match sp.key with
      | none => d
      | some k => if sp.serializable then putKV d k sp else d)
    db

/-- `ScrapeConfluence`, given the already-accumulated space list: merge page
counts in parallel, then upsert each record into the `confluence_spaces`
bucket. -/
def ScrapeConfluence (countApi : String → Except FetchError ContentMeta)
    (spaceList : List Space) (db : List (String × Space)) :
    List (String × Space) :=
  storeSpaces db (fetchPageCounts countApi spaceList)

/-! Item paginator, issues side: `DeleteProjectIssues`, `GetProjectIssues`
and `scrapeProjectIssues` in jira_service.go. -/

/-- An issue record as far as the Go code reads its field bag: the `key`
field when it is a JSON string, the embedded `fields.project.key` when it
is a string, whether `json.Marshal` succeeds, and an opaque payload
distinguishing otherwise-equal records. -/
structure Issue where
  key : Option String
  projectKey : Option String
  serializable : Bool
  payload : Nat
  deriving Repr, DecidableEq

/-- Parsed body of one search page: the `issues` array and the `isLast`
flag. -/
structure IssuesPage where
  issues : List Issue
  isLast : Bool
  deriving Repr, DecidableEq

/-- Key extraction in the duplicate scan: `issueKey := ""` unless the `key`
field is a JSON string. -/
def extractIssueKey (i : Issue) : String := i.key.getD ""

/-- The duplicate/new scan over one page of issues: an issue with an empty
extracted key is neither counted nor marked seen; a non-empty key already
seen counts as a duplicate; otherwise the key is marked seen and the issue
counts as new.  Returns (duplicateCount, newIssuesCount, updated seen
set). -/
def scanIssues : List Issue → List String → Nat × Nat × List String
  | [], seen => (0, 0, seen)
  | i :: rest, seen =>
    let k := extractIssueKey i
    if k ≠ "" then
      if seen.contains k then
        let r := scanIssues rest seen
        (r.1 + 1, r.2.1, r.2.2)
      else
        let r := scanIssues rest (k :: seen)
        (r.1, r.2.1 + 1, r.2.2)
    else
      scanIssues rest seen

/-- A `bucket.Put` failure inside the issue-store transaction. -/
inductive StoreErr where
  | putFailed (key : String)
  deriving Repr, DecidableEq

/-- The store transaction of one page of issues (the `db.Update` closure in
`scrapeProjectIssues`): an issue without a string `key` field is skipped, an
issue that fails to serialize is skipped, and a failing `Put` aborts the
whole transaction with an error (bolt rolls the transaction back, so the
caller's bucket is unchanged in that case). -/
def storeIssuesTx (putFails : String → Bool) (db : List (String × Issue)) :
    List Issue → Except StoreErr (List (String × Issue))
  | [] => .ok db
  | i :: rest =>
    match i.key with
    | none => storeIssuesTx putFails db rest
    | some k =>
      if i.serializable then
        if putFails k then .error (.putFailed k)
        else storeIssuesTx putFails (putKV db k i) rest
      else storeIssuesTx putFails db rest

/-- Termination status of the issues pagination loop.  `capReached` marks
the Go `for` loop exiting because `iteration` reached `maxIterations`
(observationally the Go function still returns nil there). -/
inductive ScrapeOutcome where
  | completed
  | failed (e : FetchError)
  | storeFailed (e : StoreErr)
  | capReached
  deriving Repr, DecidableEq

/-- Result of the issues pagination loop: the `issues` bucket, the
`totalFetched` counter, the number of remote requests made, all issues
received from the remote during the fetch (in arrival order), and the
termination status. -/
structure IssuesResult where
  db : List (String × Issue)
  totalFetched : Nat
  requests : Nat
  processed : List Issue
  outcome : ScrapeOutcome
  deriving Repr, DecidableEq

/-- Page size requested by `scrapeProjectIssues`. -/
def maxResults : Nat := 100

/-- Safety limit on pagination iterations in `scrapeProjectIssues`. -/
def maxIterations : Nat := 200

/-- The pagination loop of `scrapeProjectIssues`.  One iteration: fetch the
page at `startAt` (an error aborts); an empty page completes; scan for
duplicates; a page of only duplicates (dup > 0, new = 0) completes before
storing; otherwise store the page (a failing put aborts, bucket rolled
back); complete if `isLast` or the page was short; otherwise advance
`startAt` by the number of issues received and continue.  The first
argument of the recursion is the remaining iteration budget
(`maxIterations - iteration`). -/
def issuesLoop (api : Nat → Except FetchError IssuesPage) (putFails : String → Bool) :
    Nat → Nat → List String → Nat → Nat → List Issue → List (String × Issue) →
    IssuesResult
  | 0, _, _, total, reqs, processed, db =>
    ⟨db, total, reqs, processed, .capReached⟩
  | fuel + 1, startAt, seen, total, reqs, processed, db =>
    match api startAt with
    | .error e => ⟨db, total, reqs + 1, processed, .failed e⟩
    | .ok page =>
      let issuesInBatch := page.issues.length
      let processed2 := processed ++ page.issues
      if issuesInBatch = 0 then
        ⟨db, total, reqs + 1, processed2, .completed⟩
      else
        let scan := scanIssues page.issues seen
        if scan.1 > 0 ∧ scan.2.1 = 0 then
          ⟨db, total, reqs + 1, processed2, .completed⟩
        else
          match storeIssuesTx putFails db page.issues with
          | .error e => ⟨db, total, reqs + 1, processed2, .storeFailed e⟩
          | .ok db2 =>
            let total2 := total + scan.2.1
            if page.isLast then
              ⟨db2, total2, reqs + 1, processed2, .completed⟩
            else if issuesInBatch < maxResults then
              ⟨db2, total2, reqs + 1, processed2, .completed⟩
            else
              issuesLoop api putFails fuel (startAt + issuesInBatch) scan.2.2
                total2 (reqs + 1) processed2 db2

/-- `scrapeProjectIssues`: run the pagination loop from offset 0 with an
empty seen set against the given remote. -/
def scrapeProjectIssues (api : Nat → Except FetchError IssuesPage)
    (putFails : String → Bool) (db : List (String × Issue)) : IssuesResult :=
  issuesLoop api putFails maxIterations 0 [] 0 0 [] db

/-- Predicate used by `DeleteProjectIssues`: the stored record's embedded
`fields.project.key` equals the requested project key. -/
def issueBelongsTo (projectKey : String) (i : Issue) : Bool :=
  i.projectKey == some projectKey

/-- `DeleteProjectIssues`: linear scan of the `issues` bucket deleting every
record whose embedded project reference equals the requested key. -/
def DeleteProjectIssues (projectKey : String) (db : List (String × Issue)) :
    List (String × Issue) :=
  db.filter (fun e => !(issueBelongsTo projectKey e.2))

/-- `GetProjectIssues`: delete the project's previously stored issues, then
fetch fresh ones. -/
def GetProjectIssues (api : Nat → Except FetchError IssuesPage)
    (putFails : String → Bool) (projectKey : String)
    (db : List (String × Issue)) : IssuesResult :=
  scrapeProjectIssues api putFails (DeleteProjectIssues projectKey db)

/-! Item paginator, pages side: `GetSpacePages` and `scrapeSpacePages` in
the Confluence scraper service (the concurrent batch version). -/

/-- A page record as far as the Go code reads its field bag: the `id` field
when it is a string, the embedded space reference delivered by
`expand=space` (stored verbatim, never read by the paginator), whether
`json.Marshal` succeeds, and an opaque payload. -/
structure Page where
  id : Option String
  spaceKey : Option String
  serializable : Bool
  payload : Nat
  deriving Repr, DecidableEq

/-- Page size requested by `scrapeSpacePages`. -/
def pagesLimit : Nat := 25

/-- Number of concurrent requests per batch in `scrapeSpacePages`. -/
def pagesBatchSize : Nat := 5

/-- The store transaction for one batch result of pages: a page without a
string `id` is skipped, a page that fails to serialize is skipped, the rest
are upserted under their id. -/
def storePagesTx (db : List (String × Page)) : List Page → List (String × Page)
  | [] => db
  | p :: rest =>
    match p.id with
    | none => storePagesTx db rest
    | some i =>
      if p.serializable then storePagesTx (putKV db i p) rest
      else storePagesTx db rest

/-- Outcome of processing the batch results of one iteration of
`scrapeSpacePages`, in index order: the first batch error aborts the scrape;
an empty batch or a short batch stores what precedes it (the short batch
included) and stops the loop; otherwise all batches are stored and the loop
continues. -/
inductive BatchStep where
  | erred (e : FetchError) (db : List (String × Page)) (total : Nat)
  | stopped (db : List (String × Page)) (total : Nat)
  | continued (db : List (String × Page)) (total : Nat)
  deriving Repr, DecidableEq

/-- Process the batch results of one iteration in order (the Go loop over
`batchResults[0..actualBatchSize)`). -/
def processBatchResults :
    List (Except FetchError (List Page)) → List (String × Page) → Nat → BatchStep
  | [], db, total => .continued db total
  | r :: rest, db, total =>
    match r with
    | .error e => .erred e db total
    | .ok pages =>
      if pages.length = 0 then .stopped db total
      else
        let db2 := storePagesTx db pages
        let total2 := total + pages.length
        if pages.length < pagesLimit then .stopped db2 total2
        else processBatchResults rest db2 total2

/-- The batch-size computation at the top of each `scrapeSpacePages`
iteration (only consulted when `pageCount > 0` and some pages remain):
shrink the batch when fewer than `batchSize*limit` pages remain. -/
def computeBatchSize (pageCount : Int) (totalPages : Nat) : Nat :=
  if pageCount > 0 then
    if pageCount - (totalPages : Int) < (pagesBatchSize * pagesLimit : Nat) then
      let a := ((pageCount - (totalPages : Int)).toNat + pagesLimit - 1) / pagesLimit
      if a = 0 then 1 else a
    else pagesBatchSize
  else pagesBatchSize

/-- Termination status of the pages pagination loop.  The Go loop is
`for { ... }` with no iteration cap; `outOfFuel` marks the observation that
the loop was still running after the given number of iterations. -/
inductive PagesLoopOut where
  | done (db : List (String × Page)) (total : Nat)
  | failed (e : FetchError) (db : List (String × Page)) (total : Nat)
  | outOfFuel (db : List (String × Page)) (total : Nat)
  deriving Repr, DecidableEq

/-- True on the out-of-fuel marker. -/
def PagesLoopOut.ranOut : PagesLoopOut → Bool
  | .outOfFuel _ _ => true
  | _ => false

/-- The pagination loop of `scrapeSpacePages`.  One iteration: when a
positive `pageCount` is known and no pages remain, stop; compute the batch
size; fetch `actualBatchSize` offsets concurrently (modelled in batch-start
order); process the results in order; on a stop signal finish, on an error
abort; otherwise advance `start` by `actualBatchSize*limit`, stop early if
a positive `pageCount` has been reached, and continue.  The Go loop has no
iteration bound, so the model carries explicit fuel. -/
def spacePagesLoop (api : Nat → Except FetchError (List Page)) (pageCount : Int) :
    Nat → Nat → Nat → List (String × Page) → PagesLoopOut
  | 0, _, total, db => .outOfFuel db total
  | fuel + 1, start, total, db =>
    if pageCount > 0 ∧ pageCount - (total : Int) ≤ 0 then .done db total
    else
      let actualBatchSize := computeBatchSize pageCount total
      let results := (List.range actualBatchSize).map (fun i => api (start + i * pagesLimit))
      match processBatchResults results db total with
      | .erred e db2 t2 => .failed e db2 t2
      | .stopped db2 t2 => .done db2 t2
      | .continued db2 t2 =>
        if pageCount > 0 ∧ pageCount ≤ (t2 : Int) then .done db2 t2
        else spacePagesLoop api pageCount fuel (start + actualBatchSize * pagesLimit) t2 db2

/-- Termination status of a whole `scrapeSpacePages` call. -/
inductive SpacePagesOutcome where
  | completed (totalPages : Nat)
  | failed (e : FetchError)
  | ranOut
  deriving Repr, DecidableEq

/-- Result of a `scrapeSpacePages` call: the `confluence_spaces` bucket, the
`confluence_pages` bucket, and the outcome. -/
structure SpacePagesResult where
  spacesDb : List (String × Space)
  pagesDb : List (String × Page)
  outcome : SpacePagesOutcome
  deriving Repr, DecidableEq

/-- The post-step of `scrapeSpacePages` (lines 439-463): reload the space
record, set its `pageCount` field to the number of pages actually fetched,
and store it back; a space absent from the bucket leaves the bucket
unchanged. -/
def updateSpacePageCount (spacesDb : List (String × Space)) (spaceKey : String)
    (total : Nat) : List (String × Space) :=
  match getKV spacesDb spaceKey with
  | none => spacesDb
  | some sp => putKV spacesDb spaceKey { sp with pageCount := some (Int.ofNat total) }

/-- `scrapeSpacePages`: fetch the (unreliable) metadata page count, falling
back to `-1` when that fetch fails; run the pagination loop from offset 0;
on normal loop completion overwrite the owning space's stored `pageCount`
with the number of pages actually fetched. -/
def scrapeSpacePages (countResp : Except FetchError ContentMeta)
    (api : Nat → Except FetchError (List Page)) (spaceKey : String) (fuel : Nat)
    (spacesDb : List (String × Space)) (pagesDb : List (String × Page)) :
    SpacePagesResult :=
  let pageCount : Int :=
    match GetSpacePageCount countResp with
    | .error _ => -1
    | .ok t => t
  match spacePagesLoop api pageCount fuel 0 0 pagesDb with
  | .outOfFuel db _ => ⟨spacesDb, db, .ranOut⟩
  | .failed e db _ => ⟨spacesDb, db, .failed e⟩
  | .done db t => ⟨updateSpacePageCount spacesDb spaceKey t, db, .completed t⟩

/-- `GetSpacePages` (the public per-space refresh): directly calls
`scrapeSpacePages`; no previously stored pages are deleted first. -/
def GetSpacePages (countResp : Except FetchError ContentMeta)
    (api : Nat → Except FetchError (List Page)) (spaceKey : String) (fuel : Nat)
    (spacesDb : List (String × Space)) (pagesDb : List (String × Page)) :
    SpacePagesResult :=
  scrapeSpacePages countResp api spaceKey fuel spacesDb pagesDb

/-! Dispatch layer: `IsAuthenticated` and `RefreshProjectsCacheHandler`. -/

/-- The scraper's authentication state as far as `IsAuthenticated` reads it:
whether an HTTP client has been configured (`s.client != nil`) and the held
base URL. -/
structure AuthState where
  hasClient : Bool
  baseURL : String
  deriving Repr, DecidableEq

/-- `IsAuthenticated`: a configured client and a non-empty base URL. -/
def IsAuthenticated (st : AuthState) : Bool :=
  st.hasClient && !(st.baseURL == "")

/-- A JSON `status`/`message` body as written by the handlers. -/
structure JsonStatus where
  status : String
  message : String
  deriving Repr, DecidableEq

/-- Observable effect of one `RefreshProjectsCacheHandler` call: HTTP status
code, JSON body when one is written (`none` for the plain-text 405 path),
the resulting `projects` bucket, and whether a background re-sync was
launched. -/
structure RefreshResult where
  httpStatus : Nat
  body : Option JsonStatus
  projectsDb : List (String × Project)
  scrapeStarted : Bool
  deriving Repr, DecidableEq

/-- `RefreshProjectsCacheHandler`: non-POST gets 405; an unauthenticated
caller gets 401 with an error body, the bucket untouched and no background
work; a failing synchronous cache clear gets 500 with the transaction
rolled back; otherwise the bucket is cleared synchronously, a background
`ScrapeProjects` is launched, and the caller gets 200 `started`. -/
def RefreshProjectsCacheHandler (method : String) (st : AuthState)
    (clearSucceeds : Bool) (projectsDb : List (String × Project)) : RefreshResult :=
  if method ≠ "POST" then
    ⟨405, none, projectsDb, false⟩
  else if !(IsAuthenticated st) then
    ⟨401, some ⟨"error", "Not authenticated. Please capture authentication first."⟩,
      projectsDb, false⟩
  else if !(clearSucceeds) then
    ⟨500, some ⟨"error", "Failed to clear projects cache"⟩, projectsDb, false⟩
  else
    ⟨200, some ⟨"started", "Projects cache refresh started"⟩, [], true⟩

/-! Helper lemmas about the bucket model and the store phases. -/

theorem getKV_filter {α : Type} (f : String × α → Bool) (db : List (String × α))
    (k : String) (v : α) (h : getKV (db.filter f) k = some v) : f (k, v) = true := by
  induction db with
  | nil => cases h
  | cons hd tl ih =>
    obtain ⟨k1, v1⟩ := hd
    by_cases hf : f (k1, v1)
    · rw [List.filter_cons_of_pos hf] at h
      by_cases hk : k1 = k
      · subst hk
        simp [getKV] at h
        subst h
        exact hf
      · rw [getKV] at h
        rw [if_neg hk] at h
        exact ih h
    · rw [List.filter_cons_of_neg (by simpa using hf)] at h
      exact ih h

theorem storeProjects_getKV_notin (ps : List Project) :
    ∀ (db : List (String × Project)) (k : String), k ∉ ps.map Project.key →
      getKV (storeProjects db ps) k = getKV db k := by
  induction ps with
  | nil => intro db k _; rfl
  | cons q rest ih =>
    intro db k h
    simp only [List.map_cons, List.mem_cons, not_or] at h
    have h1 : storeProjects db (q :: rest) = storeProjects (putKV db q.key q) rest := rfl
    rw [h1, ih _ _ h.2]
    exact getKV_putKV_ne db k q.key q (fun he => h.1 he.symm)

theorem storeProjects_getKV_mem (ps : List Project) :
    ∀ (db : List (String × Project)) (p : Project), (ps.map Project.key).Nodup →
      p ∈ ps → getKV (storeProjects db ps) p.key = some p := by
  induction ps with
  | nil => intro _ _ _ hp; cases hp
  | cons q rest ih =>
    intro db p hnd hp
    have h1 : storeProjects db (q :: rest) = storeProjects (putKV db q.key q) rest := rfl
    simp only [List.map_cons, List.nodup_cons] at hnd
    rcases List.mem_cons.mp hp with rfl | hmem
    · rw [h1, storeProjects_getKV_notin rest _ _ hnd.1]
      exact getKV_putKV_self db p.key p
    · rw [h1]
      exact ih _ _ hnd.2 hmem

theorem storeSpaces_cons_none (db : List (String × Space)) (q : Space)
    (rest : List Space) (h : q.key = none) :
    storeSpaces db (q :: rest) = storeSpaces db rest := by
  have h1 : storeSpaces db (q :: rest)
      = storeSpaces
          (match q.key with
           | none => db
           | some k => if q.serializable then putKV db k q else db)
          rest := rfl
  rw [h] at h1
  exact h1

theorem storeSpaces_cons_some (db : List (String × Space)) (q : Space)
    (rest : List Space) (k : String) (h : q.key = some k) (hser : q.serializable = true) :
    storeSpaces db (q :: rest) = storeSpaces (putKV db k q) rest := by
  have h1 : storeSpaces db (q :: rest)
      = storeSpaces
          (match q.key with
           | none => db
           | some k => if q.serializable then putKV db k q else db)
          rest := rfl
  rw [h] at h1
  simp only [hser, if_true] at h1
  exact h1

theorem storeSpaces_cons_skip (db : List (String × Space)) (q : Space)
    (rest : List Space) (k : String) (h : q.key = some k)
    (hser : ¬q.serializable = true) :
    storeSpaces db (q :: rest) = storeSpaces db rest := by
  have h1 : storeSpaces db (q :: rest)
      = storeSpaces
          (match q.key with
           | none => db
           | some k => if q.serializable then putKV db k q else db)
          rest := rfl
  rw [h] at h1
  simp only [hser, if_false] at h1
  exact h1

theorem filterMap_key_cons_none (q : Space) (rest : List Space) (h : q.key = none) :
    (q :: rest).filterMap Space.key = rest.filterMap Space.key := by
  simp [List.filterMap_cons, h]

theorem filterMap_key_cons_some (q : Space) (rest : List Space) (k : String)
    (h : q.key = some k) :
    (q :: rest).filterMap Space.key = k :: rest.filterMap Space.key := by
  simp [List.filterMap_cons, h]

theorem storeSpaces_getKV_notin (ss : List Space) :
    ∀ (db : List (String × Space)) (k : String), k ∉ ss.filterMap Space.key →
      getKV (storeSpaces db ss) k = getKV db k := by
  induction ss with
  | nil => intro db k _; rfl
  | cons q rest ih =>
    intro db k h
    cases hq : q.key with
    | none =>
      rw [filterMap_key_cons_none q rest hq] at h
      rw [storeSpaces_cons_none db q rest hq]
      exact ih db k h
    | some kq =>
      rw [filterMap_key_cons_some q rest kq hq] at h
      have h2 : k ∉ rest.filterMap Space.key := fun hmem => h (List.mem_cons_of_mem _ hmem)
      have hne : kq ≠ k := fun he => h (he ▸ List.mem_cons_self _ _)
      by_cases hser : q.serializable
      · rw [storeSpaces_cons_some db q rest kq hq hser, ih _ _ h2]
        exact getKV_putKV_ne db k kq q hne
      · rw [storeSpaces_cons_skip db q rest kq hq hser]
        exact ih db k h2

theorem storeSpaces_getKV_mem (ss : List Space) :
    ∀ (db : List (String × Space)) (sp : Space) (k : String),
      (ss.filterMap Space.key).Nodup → sp ∈ ss → sp.key = some k →
      sp.serializable = true → getKV (storeSpaces db ss) k = some sp := by
  induction ss with
  | nil => intro _ _ _ _ hp; cases hp
  | cons q rest ih =>
    intro db sp k hnd hp hk hser
    rcases List.mem_cons.mp hp with rfl | hmem
    · rw [filterMap_key_cons_some sp rest k hk] at hnd
      have hnotin : k ∉ rest.filterMap Space.key := (List.nodup_cons.mp hnd).1
      rw [storeSpaces_cons_some db sp rest k hk hser,
        storeSpaces_getKV_notin rest _ _ hnotin]
      exact getKV_putKV_self db k sp
    · cases hq : q.key with
      | none =>
        rw [filterMap_key_cons_none q rest hq] at hnd
        rw [storeSpaces_cons_none db q rest hq]
        exact ih db sp k hnd hmem hk hser
      | some kq =>
        rw [filterMap_key_cons_some q rest kq hq] at hnd
        have hnd2 := (List.nodup_cons.mp hnd).2
        by_cases hserq : q.serializable
        · rw [storeSpaces_cons_some db q rest kq hq hserq]
          exact ih _ sp k hnd2 hmem hk hser
        · rw [storeSpaces_cons_skip db q rest kq hq hserq]
          exact ih db sp k hnd2 hmem hk hser

theorem mergeIssueCount_key (p : Project) (r : Except FetchError Nat) :
    (mergeIssueCount p r).key = p.key := by
  cases r <;> rfl

theorem fetchIssueCounts_map_key (countApi : String → Except FetchError CountSearchResult)
    (ps : List Project) :
    (fetchIssueCounts countApi ps).map Project.key = ps.map Project.key := by
  simp [fetchIssueCounts, List.map_map, Function.comp_def, mergeIssueCount_key]

theorem mergePageCount_key (sp : Space) (countApi : String → Except FetchError ContentMeta) :
    (mergePageCount sp countApi).key = sp.key := by
  cases hk : sp.key with
  | none => simp [mergePageCount, hk]
  | some k =>
    cases h2 : GetSpacePageCount (countApi k) with
    | error e => simp [mergePageCount, hk, h2]
    | ok t => simp [mergePageCount, hk, h2]

theorem mergePageCount_serializable (sp : Space)
    (countApi : String → Except FetchError ContentMeta) :
    (mergePageCount sp countApi).serializable = sp.serializable := by
  cases hk : sp.key with
  | none => simp [mergePageCount, hk]
  | some k =>
    cases h2 : GetSpacePageCount (countApi k) with
    | error e => simp [mergePageCount, hk, h2]
    | ok t => simp [mergePageCount, hk, h2]

theorem fetchPageCounts_filterMap_key (countApi : String → Except FetchError ContentMeta)
    (ss : List Space) :
    (fetchPageCounts countApi ss).filterMap Space.key = ss.filterMap Space.key := by
  simp [fetchPageCounts, List.filterMap_map, Function.comp_def, mergePageCount_key]

/-! C6. -/

/-- C6: for every authenticated request issued by the fetch primitive
`makeRequest`, a status-200 response returns the body bytes, a 401 or 403
response fails with the auth-expired error, any other non-200 status fails
with an error carrying the status code and the response body, and exactly
one response is consumed from the remote (no internal retry), also on a
transport failure. -/
theorem C6_makeRequest_classification (resp : HttpResponse)
    (rest : List (Option HttpResponse)) :
    (resp.status = 200 → makeRequest (some resp :: rest) = (.ok resp.body, rest)) ∧
    (resp.status = 401 ∨ resp.status = 403 →
      makeRequest (some resp :: rest) = (.error (.authExpired resp.status), rest)) ∧
    (resp.status ≠ 200 → resp.status ≠ 401 → resp.status ≠ 403 →
      makeRequest (some resp :: rest) = (.error (.remote resp.status resp.body), rest)) ∧
    (makeRequest (some resp :: rest)).2 = rest ∧
    makeRequest (none :: rest) = (.error .transport, rest) := by
  refine ⟨?_, ?_, ?_, rfl, rfl⟩
  · intro h
    simp [makeRequest, classifyResponse, h]
  · rintro (h | h) <;> simp [makeRequest, classifyResponse, h]
  · intro h200 h401 h403
    simp [makeRequest, classifyResponse, h200, h401, h403]

/-- C6 witness: a concrete 401 response is classified as auth-expired and
the rest of the queue is untouched. -/
theorem C6_witness :
    makeRequest [some ⟨401, "session gone"⟩, some ⟨200, "later"⟩]
      = (.error (.authExpired 401), [some ⟨200, "later"⟩]) :=
  (C6_makeRequest_classification ⟨401, "session gone"⟩ [some ⟨200, "later"⟩]).2.1
    (Or.inl rfl)

/-! C9. -/

/-- C9 counterexample: `ClearAllData` leaves the `auth` partition exactly as
it was — on a store whose auth bucket holds a credential record, the record
survives the clear-all, so not every partition ends up empty. -/
theorem C9_counterexample :
    (ClearAllData ⟨some [("P", "proj")], some [("I", "iss")], some [("S", "sp")],
        some [("G", "pg")], some [("current", "cred")]⟩).auth
      = some [("current", "cred")] ∧
    (ClearAllData ⟨some [("P", "proj")], some [("I", "iss")], some [("S", "sp")],
        some [("G", "pg")], some [("current", "cred")]⟩).auth
      ≠ some [] := by
  exact ⟨rfl, by simp [ClearAllData]⟩

/-- C9 (amended): a successful clear-all wipes the `projects`, `issues`,
`confluence_spaces` and `confluence_pages` partitions — each ends up present
but empty — while the `auth` partition is left completely untouched. -/
theorem C9_clearAllData_wipes_data_not_auth (st : BoltStore) :
    (ClearAllData st).projects = some [] ∧
    (ClearAllData st).issues = some [] ∧
    (ClearAllData st).confluence_spaces = some [] ∧
    (ClearAllData st).confluence_pages = some [] ∧
    (ClearAllData st).auth = st.auth :=
  ⟨rfl, rfl, rfl, rfl, rfl⟩

/-! C8. -/

/-- C8: calling the project refresh-cache endpoint with POST while
`IsAuthenticated` is false returns HTTP 401 with a body whose status field
is "error", leaves the projects partition completely unchanged, and starts
no background re-sync. -/
theorem C8_refresh_unauthenticated (st : AuthState) (clearSucceeds : Bool)
    (db : List (String × Project)) (hauth : IsAuthenticated st = false) :
    (RefreshProjectsCacheHandler "POST" st clearSucceeds db).httpStatus = 401 ∧
    (RefreshProjectsCacheHandler "POST" st clearSucceeds db).body =
      some ⟨"error", "Not authenticated. Please capture authentication first."⟩ ∧
    (RefreshProjectsCacheHandler "POST" st clearSucceeds db).projectsDb = db ∧
    (RefreshProjectsCacheHandler "POST" st clearSucceeds db).scrapeStarted = false := by
  simp [RefreshProjectsCacheHandler, hauth]

/-- C8 witness: a concrete unauthenticated call with a non-empty projects
bucket. -/
theorem C8_witness :
    ((RefreshProjectsCacheHandler "POST" ⟨false, "https://example.test"⟩ true
        [("ENG", ⟨"ENG", "Engineering", some 4⟩)]).httpStatus = 401 ∧
      (RefreshProjectsCacheHandler "POST" ⟨false, "https://example.test"⟩ true
        [("ENG", ⟨"ENG", "Engineering", some 4⟩)]).body =
        some ⟨"error", "Not authenticated. Please capture authentication first."⟩ ∧
      (RefreshProjectsCacheHandler "POST" ⟨false, "https://example.test"⟩ true
        [("ENG", ⟨"ENG", "Engineering", some 4⟩)]).projectsDb =
        [("ENG", ⟨"ENG", "Engineering", some 4⟩)] ∧
      (RefreshProjectsCacheHandler "POST" ⟨false, "https://example.test"⟩ true
        [("ENG", ⟨"ENG", "Engineering", some 4⟩)]).scrapeStarted = false) :=
  C8_refresh_unauthenticated ⟨false, "https://example.test"⟩ true
    [("ENG", ⟨"ENG", "Engineering", some 4⟩)] rfl

/-! C1. -/

/-- C1 counterexample: for the Jira index sync, a project whose count-fetch
fails ends up stored with `issueCount` equal to literally `0` — a fabricated
zero, not a sentinel distinct from zero.  The first conjunct exhibits that
the count-fetch for this container failed; the second shows the stored
record. -/
theorem C1_counterexample :
    GetProjectIssueCount
        ((fun _ : String => (.error .transport : Except FetchError CountSearchResult)) "DEMO")
      = .error .transport ∧
    getKV (ScrapeProjects (fun _ => .error .transport) [⟨"DEMO", "Demo", none⟩] []) "DEMO"
      = some ⟨"DEMO", "Demo", some 0⟩ :=
  ⟨rfl, rfl⟩

/-- C1 (amended): in the Jira index sync a failed count-fetch stores `0` for
that project (indistinguishable from a real zero), while in the Confluence
index sync a failed count-fetch stores the sentinel `-1`, which is distinct
from zero; in both services the failure is isolated per container — every
other container's stored record is determined by its own count-fetch alone.
A successfully counted project stores the non-negative length of the
returned issue list; a successfully counted space stores the remote-reported
total verbatim. -/
theorem C1_count_merge (countApiJ : String → Except FetchError CountSearchResult)
    (countApiC : String → Except FetchError ContentMeta)
    (projects : List Project) (spaces : List Space)
    (db : List (String × Project)) (sdb : List (String × Space))
    (hndp : (projects.map Project.key).Nodup)
    (hnds : (spaces.filterMap Space.key).Nodup) :
    (∀ p ∈ projects, ∀ e, GetProjectIssueCount (countApiJ p.key) = .error e →
      getKV (ScrapeProjects countApiJ projects db) p.key
        = some { p with issueCount := some 0 }) ∧
    (∀ p ∈ projects, ∀ n, GetProjectIssueCount (countApiJ p.key) = .ok n →
      getKV (ScrapeProjects countApiJ projects db) p.key
        = some { p with issueCount := some (Int.ofNat n) } ∧ (0 : Int) ≤ Int.ofNat n) ∧
    (∀ sp ∈ spaces, ∀ k, sp.key = some k → sp.serializable = true →
      ∀ e, GetSpacePageCount (countApiC k) = .error e →
      getKV (ScrapeConfluence countApiC spaces sdb) k
        = some { sp with pageCount := some (-1) } ∧ (-1 : Int) ≠ 0) ∧
    (∀ sp ∈ spaces, ∀ k t, sp.key = some k → sp.serializable = true →
      GetSpacePageCount (countApiC k) = .ok t →
      getKV (ScrapeConfluence countApiC spaces sdb) k
        = some { sp with pageCount := some t }) := by
  have hmemP : ∀ p ∈ projects,
      getKV (ScrapeProjects countApiJ projects db) p.key
        = some (mergeIssueCount p (GetProjectIssueCount (countApiJ p.key))) := by
    intro p hp
    have hnd2 : ((fetchIssueCounts countApiJ projects).map Project.key).Nodup := by
      rw [fetchIssueCounts_map_key]; exact hndp
    have hmem : mergeIssueCount p (GetProjectIssueCount (countApiJ p.key))
        ∈ fetchIssueCounts countApiJ projects :=
      List.mem_map_of_mem _ hp
    have := storeProjects_getKV_mem (fetchIssueCounts countApiJ projects) db _ hnd2 hmem
    rwa [mergeIssueCount_key] at this
  have hmemS : ∀ sp ∈ spaces, ∀ k, sp.key = some k → sp.serializable = true →
      getKV (ScrapeConfluence countApiC spaces sdb) k
        = some (mergePageCount sp countApiC) := by
    intro sp hsp k hk hser
    have hnd2 : ((fetchPageCounts countApiC spaces).filterMap Space.key).Nodup := by
      rw [fetchPageCounts_filterMap_key]; exact hnds
    have hmem : mergePageCount sp countApiC ∈ fetchPageCounts countApiC spaces :=
      List.mem_map_of_mem _ hsp
    exact storeSpaces_getKV_mem (fetchPageCounts countApiC spaces) sdb _ k hnd2 hmem
      (by rw [mergePageCount_key]; exact hk)
      (by rw [mergePageCount_serializable]; exact hser)
  refine ⟨?_, ?_, ?_, ?_⟩
  · intro p hp e he
    have := hmemP p hp
    rwa [he] at this
  · intro p hp n hn
    have := hmemP p hp
    rw [hn] at this
    exact ⟨this, Int.ofNat_nonneg n⟩
  · intro sp hsp k hk hser e he
    have := hmemS sp hsp k hk hser
    rw [show mergePageCount sp countApiC = { sp with pageCount := some (-1) } by
      simp [mergePageCount, hk, he]] at this
    exact ⟨this, by decide⟩
  · intro sp hsp k t hk hser ht
    have := hmemS sp hsp k hk hser
    rwa [show mergePageCount sp countApiC = { sp with pageCount := some t } by
      simp [mergePageCount, hk, ht]] at this

/-- C1 witness: two projects and two spaces, one count-fetch of each kind
failing and one succeeding; the failing project stores `0`, the failing
space stores `-1`, and the succeeding containers store their fetched
counts — the failures abort neither sync. -/
theorem C1_witness :
    getKV (ScrapeProjects
        (fun k => if k = "BAD" then .error .transport else .ok ⟨[(), (), ()], true⟩)
        [⟨"BAD", "Bad", none⟩, ⟨"OK", "Ok", none⟩] []) "BAD"
      = some ⟨"BAD", "Bad", some 0⟩ ∧
    getKV (ScrapeProjects
        (fun k => if k = "BAD" then .error .transport else .ok ⟨[(), (), ()], true⟩)
        [⟨"BAD", "Bad", none⟩, ⟨"OK", "Ok", none⟩] []) "OK"
      = some ⟨"OK", "Ok", some (Int.ofNat 3)⟩ ∧
    getKV (ScrapeConfluence
        (fun k => if k = "SAD" then .error .transport else .ok ⟨0, 7⟩)
        [⟨some "SAD", none, true, 0⟩, ⟨some "FINE", none, true, 0⟩] []) "SAD"
      = some ⟨some "SAD", some (-1), true, 0⟩ ∧
    getKV (ScrapeConfluence
        (fun k => if k = "SAD" then .error .transport else .ok ⟨0, 7⟩)
        [⟨some "SAD", none, true, 0⟩, ⟨some "FINE", none, true, 0⟩] []) "FINE"
      = some ⟨some "FINE", some 7, true, 0⟩ := by
  have h := C1_count_merge
    (fun k => if k = "BAD" then .error .transport else .ok ⟨[(), (), ()], true⟩)
    (fun k => if k = "SAD" then .error .transport else .ok ⟨0, 7⟩)
    [⟨"BAD", "Bad", none⟩, ⟨"OK", "Ok", none⟩]
    [⟨some "SAD", none, true, 0⟩, ⟨some "FINE", none, true, 0⟩] [] []
    (by decide) (by decide)
  refine ⟨?_, ?_, ?_, ?_⟩
  · exact h.1 ⟨"BAD", "Bad", none⟩ (by simp) .transport (by rfl)
  · exact (h.2.1 ⟨"OK", "Ok", none⟩ (by simp) 3 (by rfl)).1
  · exact (h.2.2.1 ⟨some "SAD", none, true, 0⟩ (by simp) "SAD" rfl rfl .transport (by rfl)).1
  · exact h.2.2.2 ⟨some "FINE", none, true, 0⟩ (by simp) "FINE" 7 rfl rfl (by rfl)

/-! C7. -/

/-- C7: when a space's item fetch runs to normal completion, the owning
space's stored record has its count field overwritten with the number of
pages actually fetched by the loop, whatever the earlier metadata estimate
said. -/
theorem C7_pageCount_overwritten (countResp : Except FetchError ContentMeta)
    (api : Nat → Except FetchError (List Page)) (spaceKey : String) (fuel : Nat)
    (spacesDb : List (String × Space)) (pagesDb : List (String × Page))
    (sp : Space) (t : Nat)
    (hsp : getKV spacesDb spaceKey = some sp)
    (hdone : (scrapeSpacePages countResp api spaceKey fuel spacesDb pagesDb).outcome
      = .completed t) :
    getKV (scrapeSpacePages countResp api spaceKey fuel spacesDb pagesDb).spacesDb
        spaceKey
      = some { sp with pageCount := some (Int.ofNat t) } := by
  unfold scrapeSpacePages at hdone ⊢
  cases hloop : spacePagesLoop api
      (match GetSpacePageCount countResp with
       | .error _ => -1
       | .ok t => t) fuel 0 0 pagesDb with
  | done db total =>
    simp only [hloop] at hdone ⊢
    injection hdone with ht
    subst ht
    simp only [updateSpacePageCount, hsp]
    exact getKV_putKV_self spacesDb spaceKey _
  | failed e db total =>
    simp only [hloop] at hdone
    simp at hdone
  | outOfFuel db total =>
    simp only [hloop] at hdone
    simp at hdone

/-- C7 witness: the ENG scenario — the metadata endpoint reports a stale
count of 3, the remote actually has 0 pages; after the fetch the stored
record for ENG carries count 0, not 3. -/
theorem C7_witness :
    getKV (scrapeSpacePages (.ok ⟨0, 3⟩) (fun _ => .ok []) "ENG" 1
        [("ENG", ⟨some "ENG", some 3, true, 0⟩)] []).spacesDb "ENG"
      = some ⟨some "ENG", some (Int.ofNat 0), true, 0⟩ :=
  C7_pageCount_overwritten (.ok ⟨0, 3⟩) (fun _ => .ok []) "ENG" 1
    [("ENG", ⟨some "ENG", some 3, true, 0⟩)] [] ⟨some "ENG", some 3, true, 0⟩ 0
    rfl rfl

/-! C2. -/

theorem issuesLoop_requests_le (api : Nat → Except FetchError IssuesPage)
    (putFails : String → Bool) :
    ∀ (fuel startAt : Nat) (seen : List String) (total reqs : Nat)
      (processed : List Issue) (db : List (String × Issue)),
      (issuesLoop api putFails fuel startAt seen total reqs processed db).requests
        ≤ reqs + fuel := by
  intro fuel
  induction fuel with
  | zero =>
    intro startAt seen total reqs processed db
    simp [issuesLoop]
  | succ n ih =>
    intro startAt seen total reqs processed db
    unfold issuesLoop
    cases api startAt with
    | error e => simp
    | ok page =>
      by_cases h0 : page.issues.length = 0
      · simp [h0]
      · by_cases hdup : (scanIssues page.issues seen).1 > 0 ∧
            (scanIssues page.issues seen).2.1 = 0
        · simp [h0, hdup]
        · cases hst : storeIssuesTx putFails db page.issues with
          | error e => simp [h0, hdup, hst]
          | ok db2 =>
            by_cases hlast : page.isLast = true
            · simp [h0, hdup, hst, hlast]
            · by_cases hshort : page.issues.length < maxResults
              · simp [h0, hdup, hst, hlast, hshort]
              · simp [h0, hdup, hst, hlast, hshort]
                exact le_trans (ih _ _ _ _ _ _) (by omega)

/-- C2 (amended, issues side): the issues pagination loop makes at most
`maxIterations` (200) remote requests regardless of remote behavior — in
particular it terminates within the fixed iteration bound even against a
remote that always returns a full page and never signals a last page. -/
theorem C2_issues_loop_bounded (api : Nat → Except FetchError IssuesPage)
    (putFails : String → Bool) (db : List (String × Issue)) :
    (scrapeProjectIssues api putFails db).requests ≤ maxIterations := by
  have := issuesLoop_requests_le api putFails maxIterations 0 [] 0 0 [] db
  simpa using this

/-- A remote that answers every offset with a full page of 25 fresh pages
and never signals exhaustion. -/
def fullPage (start : Nat) : List Page :=
  (List.range pagesLimit).map (fun i => ⟨some (toString (start + i)), none, true, 0⟩)

/-- The always-full-page remote API for the pages paginator. -/
def fullPageApi : Nat → Except FetchError (List Page) :=
  fun start => .ok (fullPage start)

theorem fullPage_length (s : Nat) : (fullPage s).length = pagesLimit := by
  simp [fullPage]

theorem processBatch_all_full (results : List (Except FetchError (List Page)))
    (h : ∀ r ∈ results, ∃ pages, r = .ok pages ∧ pages.length = pagesLimit) :
    ∀ (db : List (String × Page)) (total : Nat),
      ∃ db2 t2, processBatchResults results db total = .continued db2 t2 := by
  induction results with
  | nil => exact fun db total => ⟨db, total, rfl⟩
  | cons r rest ih =>
    intro db total
    obtain ⟨pages, rfl, hlen⟩ := h r (List.mem_cons_self _ _)
    have hlen25 : pages.length = 25 := by simpa [pagesLimit] using hlen
    have h0 : ¬pages.length = 0 := by omega
    have hlt : ¬pages.length < pagesLimit := by simp [pagesLimit]; omega
    simp only [processBatchResults, h0, if_false, hlt]
    exact ih (fun r hr => h r (List.mem_cons_of_mem _ hr)) _ _

theorem spacePagesLoop_fullPage_ranOut :
    ∀ (fuel start total : Nat) (db : List (String × Page)),
      (spacePagesLoop fullPageApi (-1) fuel start total db).ranOut = true := by
  intro fuel
  induction fuel with
  | zero => intro start total db; rfl
  | succ n ih =>
    intro start total db
    have hcond : ¬((-1 : Int) > 0 ∧ (-1 : Int) - (total : Int) ≤ 0) := by
      intro hc
      exact absurd hc.1 (by decide)
    have hall : ∀ r ∈ (List.range (computeBatchSize (-1) total)).map
        (fun i => fullPageApi (start + i * pagesLimit)),
        ∃ pages, r = .ok pages ∧ pages.length = pagesLimit := by
      intro r hr
      rw [List.mem_map] at hr
      obtain ⟨i, _, rfl⟩ := hr
      exact ⟨fullPage (start + i * pagesLimit), rfl, fullPage_length _⟩
    obtain ⟨db2, t2, heq⟩ := processBatch_all_full _ hall db total
    have hcond2 : ¬((-1 : Int) > 0 ∧ (-1 : Int) ≤ (t2 : Int)) := by
      intro hc
      exact absurd hc.1 (by decide)
    unfold spacePagesLoop
    rw [if_neg hcond]
    simp only [heq]
    rw [if_neg hcond2]
    exact ih _ _ _

/-- C2 counterexample: against a remote that returns a full page at every
offset (never short, never empty) with the metadata count-fetch failing, the
pages pagination loop of `scrapeSpacePages` is still running after
`maxIterations` (200) iterations — the Go loop carries no iteration cap, so
it does not terminate within the bound the claim asserts (the lemma
`spacePagesLoop_fullPage_ranOut` shows the same for every bound). -/
theorem C2_counterexample :
    (scrapeSpacePages (.error .transport) fullPageApi "ENG" maxIterations [] []).outcome
      = .ranOut := by
  have h := spacePagesLoop_fullPage_ranOut maxIterations 0 0 []
  unfold scrapeSpacePages
  simp only [GetSpacePageCount]
  cases hloop : spacePagesLoop fullPageApi (-1) maxIterations 0 0 [] with
  | done db total =>
    rw [hloop] at h
    simp [PagesLoopOut.ranOut] at h
  | failed e db total =>
    rw [hloop] at h
    simp [PagesLoopOut.ranOut] at h
  | outOfFuel db total =>
    simp only [hloop]

/-! C3. -/

theorem storeIssuesTx_lookup (putFails : String → Bool) :
    ∀ (issues : List Issue) (db db2 : List (String × Issue)),
      storeIssuesTx putFails db issues = .ok db2 →
      ∀ (k : String) (v : Issue), getKV db2 k = some v →
        getKV db k = some v ∨ v ∈ issues := by
  intro issues
  induction issues with
  | nil =>
    intro db db2 h k v hv
    cases h
    exact Or.inl hv
  | cons i rest ih =>
    intro db db2 h k v hv
    cases hk : i.key with
    | none =>
      rw [storeIssuesTx, hk] at h
      rcases ih db db2 h k v hv with hdb | hin
      · exact Or.inl hdb
      · exact Or.inr (List.mem_cons_of_mem _ hin)
    | some ki =>
      rw [storeIssuesTx, hk] at h
      by_cases hser : i.serializable = true
      · by_cases hpf : putFails ki = true
        · simp [hser, hpf] at h
        · simp only [hser, hpf, if_true, if_false, Bool.false_eq_true] at h
          rcases ih _ db2 h k v hv with hdb | hin
          · by_cases hkk : ki = k
            · subst hkk
              rw [getKV_putKV_self] at hdb
              cases hdb
              exact Or.inr (List.mem_cons_self _ _)
            · rw [getKV_putKV_ne _ _ _ _ hkk] at hdb
              exact Or.inl hdb
          · exact Or.inr (List.mem_cons_of_mem _ hin)
      · simp only [hser, if_false, Bool.false_eq_true] at h
        rcases ih db db2 h k v hv with hdb | hin
        · exact Or.inl hdb
        · exact Or.inr (List.mem_cons_of_mem _ hin)

theorem issuesLoop_processed_mono (api : Nat → Except FetchError IssuesPage)
    (putFails : String → Bool) :
    ∀ (fuel startAt : Nat) (seen : List String) (total reqs : Nat)
      (processed : List Issue) (db : List (String × Issue)) (v : Issue),
      v ∈ processed →
      v ∈ (issuesLoop api putFails fuel startAt seen total reqs processed db).processed := by
  intro fuel
  induction fuel with
  | zero =>
    intro startAt seen total reqs processed db v hv
    simpa [issuesLoop] using hv
  | succ n ih =>
    intro startAt seen total reqs processed db v hv
    unfold issuesLoop
    cases api startAt with
    | error e => simpa using hv
    | ok page =>
      by_cases h0 : page.issues.length = 0
      · simp [h0]
        exact Or.inl hv
      · by_cases hdup : (scanIssues page.issues seen).1 > 0 ∧
            (scanIssues page.issues seen).2.1 = 0
        · simp [h0, hdup]
          exact Or.inl hv
        · cases hst : storeIssuesTx putFails db page.issues with
          | error e =>
            simp [h0, hdup, hst]
            exact Or.inl hv
          | ok db2 =>
            by_cases hlast : page.isLast = true
            · simp [h0, hdup, hst, hlast]
              exact Or.inl hv
            · by_cases hshort : page.issues.length < maxResults
              · simp [h0, hdup, hst, hlast, hshort]
                exact Or.inl hv
              · simp [h0, hdup, hst, hlast, hshort]
                exact ih _ _ _ _ _ db2 v (List.mem_append_left _ hv)

theorem issuesLoop_db_origin (api : Nat → Except FetchError IssuesPage)
    (putFails : String → Bool) :
    ∀ (fuel startAt : Nat) (seen : List String) (total reqs : Nat)
      (processed : List Issue) (db : List (String × Issue)) (k : String) (v : Issue),
      getKV (issuesLoop api putFails fuel startAt seen total reqs processed db).db k
        = some v →
      getKV db k = some v ∨
        v ∈ (issuesLoop api putFails fuel startAt seen total reqs processed db).processed := by
  intro fuel
  induction fuel with
  | zero =>
    intro startAt seen total reqs processed db k v hv
    exact Or.inl (by simpa [issuesLoop] using hv)
  | succ n ih =>
    intro startAt seen total reqs processed db k v hv
    unfold issuesLoop at hv ⊢
    cases hapi : api startAt with
    | error e =>
      rw [hapi] at hv
      simp at hv
      exact Or.inl hv
    | ok page =>
      rw [hapi] at hv
      by_cases h0 : page.issues.length = 0
      · simp [h0] at hv ⊢
        exact Or.inl hv
      · by_cases hdup : (scanIssues page.issues seen).1 > 0 ∧
            (scanIssues page.issues seen).2.1 = 0
        · simp [h0, hdup] at hv ⊢
          exact Or.inl hv
        · cases hst : storeIssuesTx putFails db page.issues with
          | error e =>
            simp [h0, hdup, hst] at hv ⊢
            exact Or.inl hv
          | ok db2 =>
            by_cases hlast : page.isLast = true
            · simp [h0, hdup, hst, hlast] at hv ⊢
              rcases storeIssuesTx_lookup putFails page.issues db db2 hst k v hv with hdb | hin
              · exact Or.inl hdb
              · exact Or.inr (Or.inr hin)
            · by_cases hshort : page.issues.length < maxResults
              · simp [h0, hdup, hst, hlast, hshort] at hv ⊢
                rcases storeIssuesTx_lookup putFails page.issues db db2 hst k v hv with hdb | hin
                · exact Or.inl hdb
                · exact Or.inr (Or.inr hin)
              · simp [h0, hdup, hst, hlast, hshort] at hv ⊢
                rcases ih _ _ _ _ _ db2 k v hv with hdb2 | hin
                · rcases storeIssuesTx_lookup putFails page.issues db db2 hst k v hdb2 with
                    hdb | hin2
                  · exact Or.inl hdb
                  · exact Or.inr (issuesLoop_processed_mono api putFails n _ _ _ _ _ db2 v
                      (List.mem_append_right _ hin2))
                · exact Or.inr hin

/-- C3 (amended, issues side): after a per-project refresh via
`GetProjectIssues`, every issue stored in the bucket whose embedded project
reference equals the requested project key is one of the issues delivered by
the most recent fetch — the pre-delete removes all previously stored issues
of that project, and the loop only inserts issues it received. -/
theorem C3_issues_no_stale (api : Nat → Except FetchError IssuesPage)
    (putFails : String → Bool) (projectKey : String) (db : List (String × Issue))
    (k : String) (v : Issue)
    (hv : getKV (GetProjectIssues api putFails projectKey db).db k = some v)
    (href : v.projectKey = some projectKey) :
    v ∈ (GetProjectIssues api putFails projectKey db).processed := by
  unfold GetProjectIssues scrapeProjectIssues at hv ⊢
  rcases issuesLoop_db_origin api putFails maxIterations 0 [] 0 0 []
      (DeleteProjectIssues projectKey db) k v hv with hold | hin
  · exfalso
    have hkeep := getKV_filter (fun e => !(issueBelongsTo projectKey e.2)) db k v hold
    simp [issueBelongsTo, href] at hkeep
  · exact hin

/-- C3 witness: a stale issue for project ENG sits in the bucket; after the
refresh the only stored ENG issue is the freshly fetched one, and it is a
member of the fetch's result set. -/
theorem C3_witness :
    (⟨some "ENG-1", some "ENG", true, 1⟩ : Issue) ∈
      (GetProjectIssues
        (fun _ => .ok ⟨[⟨some "ENG-1", some "ENG", true, 1⟩], true⟩)
        (fun _ => false) "ENG"
        [("OLD-1", ⟨some "OLD-1", some "ENG", true, 7⟩)]).processed :=
  C3_issues_no_stale
    (fun _ => .ok ⟨[⟨some "ENG-1", some "ENG", true, 1⟩], true⟩)
    (fun _ => false) "ENG"
    [("OLD-1", ⟨some "OLD-1", some "ENG", true, 7⟩)]
    "ENG-1" ⟨some "ENG-1", some "ENG", true, 1⟩ rfl rfl

/-- C3 counterexample (pages side): `GetSpacePages` performs no pre-delete,
so a previously stored page whose embedded space reference equals the
requested space survives a refresh that fetched zero pages — after the
completed refresh the stale page is still in the bucket even though it is
not in the (empty) result set of the most recent fetch. -/
theorem C3_counterexample :
    (GetSpacePages (.error .transport) (fun _ => .ok []) "ENG" 1 []
        [("old-1", ⟨some "old-1", some "ENG", true, 7⟩)]).pagesDb
      = [("old-1", ⟨some "old-1", some "ENG", true, 7⟩)] ∧
    (GetSpacePages (.error .transport) (fun _ => .ok []) "ENG" 1 []
        [("old-1", ⟨some "old-1", some "ENG", true, 7⟩)]).outcome
      = .completed 0 :=
  ⟨rfl, rfl⟩

/-! C4. -/

theorem scanIssues_all_seen (seen : List String) :
    ∀ issues : List Issue,
      (∀ i ∈ issues, ∃ k, i.key = some k ∧ k ≠ "" ∧ seen.contains k = true) →
      scanIssues issues seen = (issues.length, 0, seen) := by
  intro issues
  induction issues with
  | nil => intro _; rfl
  | cons i rest ih =>
    intro hall
    obtain ⟨k, hk, hne, hc⟩ := hall i (List.mem_cons_self _ _)
    have hrest := ih (fun j hj => hall j (List.mem_cons_of_mem _ hj))
    have hmem : k ∈ seen := by simpa using hc
    simp [scanIssues, extractIssueKey, hk, hne, hc, hmem, hrest]

/-- C4: when a fetched page is non-empty and every issue in it carries a key
already seen earlier in the same fetch, the pagination loop stops right
after processing that page: it completes with exactly one more remote
request, the bucket untouched by that page and nothing further fetched. -/
theorem C4_all_duplicates_stop (api : Nat → Except FetchError IssuesPage)
    (putFails : String → Bool) (fuel startAt : Nat) (seen : List String)
    (total reqs : Nat) (processed : List Issue) (db : List (String × Issue))
    (page : IssuesPage)
    (hapi : api startAt = .ok page)
    (hne : page.issues ≠ [])
    (hall : ∀ i ∈ page.issues, ∃ k, i.key = some k ∧ k ≠ "" ∧ seen.contains k = true) :
    issuesLoop api putFails (fuel + 1) startAt seen total reqs processed db
      = ⟨db, total, reqs + 1, processed ++ page.issues, .completed⟩ := by
  have hscan := scanIssues_all_seen seen page.issues hall
  have hlen : page.issues.length ≠ 0 := by
    simpa [List.length_eq_zero] using hne
  unfold issuesLoop
  rw [hapi]
  simp only [hlen, if_false, hscan]
  have hcond : page.issues.length > 0 ∧ (0 : Nat) = 0 := by
    exact ⟨Nat.pos_of_ne_zero hlen, rfl⟩
  simp [hlen, hcond]

/-- C4 witness: a page consisting of one already-seen issue key stops the
loop with the bucket untouched after a single request. -/
theorem C4_witness :
    issuesLoop (fun _ => .ok ⟨[⟨some "A", some "P", true, 1⟩], false⟩)
        (fun _ => false) 3 0 ["A"] 5 1 [] []
      = ⟨[], 5, 2, [⟨some "A", some "P", true, 1⟩], .completed⟩ :=
  C4_all_duplicates_stop (fun _ => .ok ⟨[⟨some "A", some "P", true, 1⟩], false⟩)
    (fun _ => false) 2 0 ["A"] 5 1 [] [] ⟨[⟨some "A", some "P", true, 1⟩], false⟩
    rfl (by simp)
    (fun i hi => by
      rw [List.mem_singleton] at hi
      subst hi
      exact ⟨"A", rfl, by simp, rfl⟩)

/-! C5. -/

/-- A remote whose single page contains the same issue key twice with
different payloads, plus one fresh issue. -/
def repeatedKeyApi : Nat → Except FetchError IssuesPage :=
  fun _ => .ok ⟨[⟨some "A", some "P", true, 1⟩, ⟨some "A", some "P", true, 2⟩,
    ⟨some "B", some "P", true, 3⟩], true⟩

/-- C5 evaluated at the failing input: the second occurrence of key A in the
page is counted as a duplicate, yet the store transaction puts it anyway, so
the bucket ends up holding the duplicate's payload (2) instead of the first
occurrence's payload (1) — duplicates are in fact stored again, contrary to
the claim and to the code's own comment that only new issues are stored. -/
theorem C5_duplicate_stored_again :
    getKV (scrapeProjectIssues repeatedKeyApi (fun _ => false) []).db "A"
        = some ⟨some "A", some "P", true, 2⟩ ∧
    getKV (scrapeProjectIssues repeatedKeyApi (fun _ => false) []).db "A"
        ≠ some ⟨some "A", some "P", true, 1⟩ := by
  constructor
  · rfl
  · intro h
    rw [show getKV (scrapeProjectIssues repeatedKeyApi (fun _ => false) []).db "A"
        = some ⟨some "A", some "P", true, 2⟩ from rfl] at h
    simp at h

/-! C10. -/

theorem storeIssuesTx_ok_of_no_putFail (putFails : String → Bool) :
    ∀ (issues : List Issue) (db : List (String × Issue)),
      (∀ i ∈ issues, ∀ k, i.key = some k → i.serializable = true → putFails k = false) →
      ∃ db2, storeIssuesTx putFails db issues = .ok db2 := by
  intro issues
  induction issues with
  | nil => intro db _; exact ⟨db, rfl⟩
  | cons i rest ih =>
    intro db hno
    have hrest := fun db0 => ih db0 (fun j hj => hno j (List.mem_cons_of_mem _ hj))
    cases hk : i.key with
    | none =>
      obtain ⟨db2, h2⟩ := hrest db
      exact ⟨db2, by rw [storeIssuesTx, hk]; exact h2⟩
    | some ki =>
      by_cases hser : i.serializable = true
      · have hpf : putFails ki = false := hno i (List.mem_cons_self _ _) ki hk hser
        obtain ⟨db2, h2⟩ := hrest (putKV db ki i)
        refine ⟨db2, ?_⟩
        rw [storeIssuesTx, hk]
        simp only [hser, if_true, hpf, Bool.false_eq_true, if_false]
        exact h2
      · obtain ⟨db2, h2⟩ := hrest db
        refine ⟨db2, ?_⟩
        rw [storeIssuesTx, hk]
        simp only [hser, if_false, Bool.false_eq_true]
        exact h2

theorem storeIssuesTx_bound (putFails : String → Bool) (kq : String)
    (Q : Issue → Prop) :
    ∀ (issues : List Issue) (db db2 : List (String × Issue)),
      storeIssuesTx putFails db issues = .ok db2 →
      (∀ i ∈ issues, i.key = some kq → i.serializable = true → Q i) →
      (∃ v, getKV db kq = some v ∧ Q v) →
      ∃ v, getKV db2 kq = some v ∧ Q v := by
  intro issues
  induction issues with
  | nil =>
    intro db db2 h _ hb
    cases h
    exact hb
  | cons i rest ih =>
    intro db db2 h hQ hb
    cases hk : i.key with
    | none =>
      rw [storeIssuesTx, hk] at h
      exact ih db db2 h (fun j hj => hQ j (List.mem_cons_of_mem _ hj)) hb
    | some ki =>
      rw [storeIssuesTx, hk] at h
      by_cases hser : i.serializable = true
      · by_cases hpf : putFails ki = true
        · simp [hser, hpf] at h
        · simp only [hser, hpf, if_true, if_false, Bool.false_eq_true] at h
          refine ih _ db2 h (fun j hj => hQ j (List.mem_cons_of_mem _ hj)) ?_
          by_cases hkk : ki = kq
          · subst hkk
            exact ⟨i, getKV_putKV_self db ki i, hQ i (List.mem_cons_self _ _) hk hser⟩
          · obtain ⟨v, hv, hQv⟩ := hb
            exact ⟨v, by rw [getKV_putKV_ne _ _ _ _ hkk]; exact hv, hQv⟩
      · simp only [hser, if_false, Bool.false_eq_true] at h
        exact ih db db2 h (fun j hj => hQ j (List.mem_cons_of_mem _ hj)) hb

theorem storeIssuesTx_stores_keyed (putFails : String → Bool) (kq : String)
    (Q : Issue → Prop) :
    ∀ (issues : List Issue) (db db2 : List (String × Issue)),
      storeIssuesTx putFails db issues = .ok db2 →
      (∀ i ∈ issues, i.key = some kq → i.serializable = true → Q i) →
      (∃ i ∈ issues, i.key = some kq ∧ i.serializable = true) →
      ∃ v, getKV db2 kq = some v ∧ Q v := by
  intro issues
  induction issues with
  | nil =>
    intro db db2 _ _ hex
    obtain ⟨i, hi, _⟩ := hex
    cases hi
  | cons i rest ih =>
    intro db db2 h hQ hex
    obtain ⟨j, hj, hjk, hjser⟩ := hex
    rcases List.mem_cons.mp hj with rfl | hjmem
    · rw [storeIssuesTx, hjk] at h
      by_cases hpf : putFails kq = true
      · simp [hjser, hpf] at h
      · simp only [hjser, hpf, if_true, if_false, Bool.false_eq_true] at h
        refine storeIssuesTx_bound putFails kq Q rest _ db2 h
          (fun x hx => hQ x (List.mem_cons_of_mem _ hx)) ?_
        exact ⟨j, getKV_putKV_self db kq j, hQ j (List.mem_cons_self _ _) hjk hjser⟩
    · cases hk : i.key with
      | none =>
        rw [storeIssuesTx, hk] at h
        exact ih db db2 h (fun x hx => hQ x (List.mem_cons_of_mem _ hx))
          ⟨j, hjmem, hjk, hjser⟩
      | some ki =>
        rw [storeIssuesTx, hk] at h
        by_cases hser : i.serializable = true
        · by_cases hpf : putFails ki = true
          · simp [hser, hpf] at h
          · simp only [hser, hpf, if_true, if_false, Bool.false_eq_true] at h
            exact ih _ db2 h (fun x hx => hQ x (List.mem_cons_of_mem _ hx))
              ⟨j, hjmem, hjk, hjser⟩
        · simp only [hser, if_false, Bool.false_eq_true] at h
          exact ih db db2 h (fun x hx => hQ x (List.mem_cons_of_mem _ hx))
            ⟨j, hjmem, hjk, hjser⟩

theorem storeIssuesTx_error_putFail (putFails : String → Bool) :
    ∀ (issues : List Issue) (db : List (String × Issue)) (k : String),
      storeIssuesTx putFails db issues = .error (.putFailed k) →
      putFails k = true ∧ ∃ i ∈ issues, i.key = some k ∧ i.serializable = true := by
  intro issues
  induction issues with
  | nil => intro db k h; cases h
  | cons i rest ih =>
    intro db k h
    cases hk : i.key with
    | none =>
      rw [storeIssuesTx, hk] at h
      obtain ⟨hpf, j, hj, hjk, hjser⟩ := ih db k h
      exact ⟨hpf, j, List.mem_cons_of_mem _ hj, hjk, hjser⟩
    | some ki =>
      rw [storeIssuesTx, hk] at h
      by_cases hser : i.serializable = true
      · by_cases hpf : putFails ki = true
        · simp only [hser, hpf, if_true] at h
          injection h with he
          injection he with hke
          subst hke
          exact ⟨hpf, i, List.mem_cons_self _ _, hk, hser⟩
        · simp only [hser, hpf, if_true, if_false, Bool.false_eq_true] at h
          obtain ⟨hpf2, j, hj, hjk, hjser⟩ := ih _ k h
          exact ⟨hpf2, j, List.mem_cons_of_mem _ hj, hjk, hjser⟩
      · simp only [hser, if_false, Bool.false_eq_true] at h
        obtain ⟨hpf2, j, hj, hjk, hjser⟩ := ih db k h
        exact ⟨hpf2, j, List.mem_cons_of_mem _ hj, hjk, hjser⟩

/-- C10: the per-page store transaction skips issues lacking a string key
field and issues that fail to serialize, while still reporting success and
still storing the remaining keyed serializable issues of the page (each such
key ends up bound to a received issue carrying that key); the transaction
returns an error only when a database put actually fails, and that error
names a keyed serializable issue whose put was attempted. -/
theorem C10_store_skips_and_errors (putFails : String → Bool)
    (db : List (String × Issue)) (issues : List Issue) :
    ((∀ i ∈ issues, ∀ k, i.key = some k → i.serializable = true → putFails k = false) →
      ∃ db2, storeIssuesTx putFails db issues = .ok db2 ∧
        ∀ i ∈ issues, ∀ k, i.key = some k → i.serializable = true →
          ∃ v, getKV db2 k = some v ∧ v ∈ issues ∧ v.key = some k) ∧
    (∀ k, storeIssuesTx putFails db issues = .error (.putFailed k) →
      putFails k = true ∧ ∃ i ∈ issues, i.key = some k ∧ i.serializable = true) := by
  constructor
  · intro hno
    obtain ⟨db2, h2⟩ := storeIssuesTx_ok_of_no_putFail putFails issues db hno
    refine ⟨db2, h2, ?_⟩
    intro i hi k hk hser
    obtain ⟨v, hv, hQv⟩ := storeIssuesTx_stores_keyed putFails k
      (fun v => v ∈ issues ∧ v.key = some k) issues db db2 h2
      (fun x hx hxk hxs => ⟨hx, hxk⟩) ⟨i, hi, hk, hser⟩
    exact ⟨v, hv, hQv⟩
  · intro k h
    exact storeIssuesTx_error_putFail putFails issues db k h

/-- C10 witness: a page with a keyless issue, an unserializable issue and a
good issue; the transaction succeeds with no failing put and the good
issue's key is bound in the resulting bucket to a received issue. -/
theorem C10_witness :
    ∃ db2, storeIssuesTx (fun _ => false) []
        [⟨none, some "P", true, 1⟩, ⟨some "X", some "P", false, 2⟩,
          ⟨some "A", some "P", true, 3⟩] = .ok db2 ∧
      ∀ i ∈ [(⟨none, some "P", true, 1⟩ : Issue), ⟨some "X", some "P", false, 2⟩,
          ⟨some "A", some "P", true, 3⟩], ∀ k, i.key = some k → i.serializable = true →
        ∃ v, getKV db2 k = some v ∧
          v ∈ [(⟨none, some "P", true, 1⟩ : Issue), ⟨some "X", some "P", false, 2⟩,
            ⟨some "A", some "P", true, 3⟩] ∧ v.key = some k :=
  (C10_store_skips_and_errors (fun _ => false) []
    [⟨none, some "P", true, 1⟩, ⟨some "X", some "P", false, 2⟩,
      ⟨some "A", some "P", true, 3⟩]).1
    (fun _ _ _ _ _ => rfl)

end AktisParser
